import Mathlib

/-!
Verification of the adaptive-window SINR aggregation engines of this
repository.  Two programs are modelled:

* `ue_localization_MA.c` — the time-bounded variant: per-UE adaptive
  windows of serving-SINR samples, closed after 5000 ms or on a
  serving-cell change, emitting one averaged batch record per window.

* the sequence-synchronized variant at the end of
  `ue_localization_MA_v2.c` — WINDOW_SIZE = 1 passthrough windows, a
  burst clock (`assign_sequence_timestamp`) over a fixed cohort of
  TOTAL_UES entities, and emission suppressed below
  MIN_NEIGHBORS_REQUIRED = 3 valid neighbors.

Real-valued SINR metrics are modelled as rationals; the possibility of
NaN ("unavailable") in the v2 variant is modelled by an explicit
constructor.  uint64 subtraction is modelled with an explicit modulus.
-/

/-- A C `double` as used by the v2 variant: either NaN or a finite value
(modelled as a rational). -/
inductive FP where
  | nan : FP
  | fin : ℚ → FP
deriving DecidableEq

/-- `isnan` from `<math.h>`. -/
def FP.isNan : FP → Bool
  | .nan => true
  | .fin _ => false

/-- Read a finite value (only ever applied after an `isnan` filter). -/
def FP.toQ : FP → ℚ
  | .nan => 0
  | .fin q => q

/-- uint64 subtraction `a - b` (wrap-around), for `a b < 2^64`. -/
def u64sub (a b : Nat) : Nat :=
  (a + 18446744073709551616 - b) % 18446744073709551616

/-- Sentinel produced by `parseServingMsg` / `parseNeighMsg` on a failed
`sscanf`: both ids are set to `-1`, i.e. `UINT16_MAX` as `uint16_t`. -/
def UNKNOWN_ID : Nat := 65535

/-- Descending sort of a list of metric values.  `ue_localization_MA.c`
sorts with `qsort` and `compare_neighbors_by_sinr` (descending); since
only the metric values of the sorted prefix are kept, any descending
sort yields the same value sequence, so a canonical insertion sort is
used.  (The C code skips the sort when `num_neighbors <= 1`, where
sorting is the identity anyway.) -/
def sortDescQ (l : List ℚ) : List ℚ :=
  l.insertionSort (fun a b => b ≤ a)

/- ===================================================================
   Model of ue_localization_MA.c (time-bounded variant)
   =================================================================== -/

/-- `cell_positions` of `ue_localization_MA.c` (doubles). -/
def cellPositionsMA : List (Nat × ℚ × ℚ) :=
  [(2, 800, 800), (3, 1200, 800), (4, 1000, 1146), (5, 600, 1146),
   (6, 400, 800), (7, 600, 453), (8, 1000, 453)]

/-- `get_cell_position` of `ue_localization_MA.c`. -/
def getCellPositionMA (cellID : Nat) : Option (ℚ × ℚ) :=
  (cellPositionsMA.find? (fun c => c.1 = cellID)).map (fun c => c.2)

/-- `measurement_point_t` of `ue_localization_MA.c`. -/
structure MeasurementPoint where
  timestamp : Nat
  ueID : Nat
  servingCellID : Nat
  servingSINR : ℚ
  neighborSINR1 : ℚ
  neighborSINR2 : ℚ
  neighborSINR3 : ℚ
  servingCellX : ℚ
  servingCellY : ℚ
deriving DecidableEq

/-- Zero-initialised `measurement_point_t` (for `getLastD`; only read
when the buffer is non-empty, mirroring `buffer[count - 1]`). -/
def dfltPoint : MeasurementPoint :=
  { timestamp := 0, ueID := 0, servingCellID := 0, servingSINR := 0,
    neighborSINR1 := 0, neighborSINR2 := 0, neighborSINR3 := 0,
    servingCellX := 0, servingCellY := 0 }

/-- `ue_adaptive_window_t` of `ue_localization_MA.c`.  The C fixed array
`buffer[200]` together with `count` is modelled as a list; the capacity
bound is the constant `WINDOW_CAPACITY` below, which the code never
checks (see the C9 analysis). -/
structure UeWindow where
  ue_id : Nat
  current_serving_cell : Nat
  window_start_time : Nat
  window_active : Bool
  buffer : List MeasurementPoint
deriving DecidableEq

/-- The declared capacity of `buffer[200]`. -/
def WINDOW_CAPACITY : Nat := 200

/-- `create_ue_window`: a zeroed window with only `ue_id` set. -/
def freshWindow (ue : Nat) : UeWindow :=
  { ue_id := ue, current_serving_cell := 0, window_start_time := 0,
    window_active := false, buffer := [] }

/-- The batch record formatted by `send_window_batch_to_python`
(timestamp average uses C integer division on `uint64_t`). -/
structure BatchRecord where
  avgTimestamp : Nat
  ueID : Nat
  servingCellID : Nat
  avgServingSINR : ℚ
  avgNeighbor1 : ℚ
  avgNeighbor2 : ℚ
  avgNeighbor3 : ℚ
  lastX : ℚ
  lastY : ℚ
deriving DecidableEq

/-- The averages computed by `send_window_batch_to_python` for a window
with `count > 0`. -/
def mkBatchRecord (w : UeWindow) : BatchRecord :=
  { avgTimestamp := (w.buffer.map (fun p => p.timestamp)).sum / w.buffer.length
  , ueID := w.ue_id
  , servingCellID := w.current_serving_cell
  , avgServingSINR := (w.buffer.map (fun p => p.servingSINR)).sum / (w.buffer.length : ℚ)
  , avgNeighbor1 := (w.buffer.map (fun p => p.neighborSINR1)).sum / (w.buffer.length : ℚ)
  , avgNeighbor2 := (w.buffer.map (fun p => p.neighborSINR2)).sum / (w.buffer.length : ℚ)
  , avgNeighbor3 := (w.buffer.map (fun p => p.neighborSINR3)).sum / (w.buffer.length : ℚ)
  , lastX := (w.buffer.getLastD dfltPoint).servingCellX
  , lastY := (w.buffer.getLastD dfltPoint).servingCellY }

/-- `send_window_batch_to_python`: returns early when `count == 0`. -/
def sendWindowBatch (w : UeWindow) : Option BatchRecord :=
  if w.buffer.length = 0 then none else some (mkBatchRecord w)

/-- `reset_window`. -/
def resetWindow (w : UeWindow) (newStart : Nat) : UeWindow :=
  { w with buffer := [], window_start_time := newStart,
           current_serving_cell := 0, window_active := false }

/-- The per-window body of `add_to_adaptive_window` (after the window
for `point->ueID` has been found or created): append or flush-and-seed,
then the 5000 ms close check. -/
def addPointToWindow (w : UeWindow) (p : MeasurementPoint) :
    UeWindow × List BatchRecord :=
  if w.buffer.length = 0 ∨ w.current_serving_cell = p.servingCellID then
    let w1 := if w.buffer.length = 0 then
        { w with current_serving_cell := p.servingCellID,
                 window_start_time := p.timestamp, window_active := true }
      else w
    let w2 := { w1 with buffer := w1.buffer ++ [p] }
    if 5000 ≤ u64sub p.timestamp w2.window_start_time then
      (resetWindow w2 p.timestamp, (sendWindowBatch w2).toList)
    else
      (w2, [])
  else
    let recs := (sendWindowBatch w).toList
    let w1 := resetWindow w p.timestamp
    ({ w1 with current_serving_cell := p.servingCellID,
               window_active := true, buffer := [p] }, recs)

/-- Ingest a list of points into one window, collecting emitted
records. -/
def ingestListW (w : UeWindow) : List MeasurementPoint →
    UeWindow × List BatchRecord
  | [] => (w, [])
  | p :: ps =>
    let o := addPointToWindow w p
    let o2 := ingestListW o.1 ps
    (o2.1, o.2 ++ o2.2)

/-- A neighbor `(cellID, SINR)` pair as collected by
`log_kpm_measurements` of `ue_localization_MA.c` (after the
`REAL_MEAS_VALUE` / `INTEGER_MEAS_VALUE` type guards). -/
structure NeighborPair where
  id : Nat
  sinr : ℚ
deriving DecidableEq

/-- `sinr_measurement_t` of `ue_localization_MA.c`. -/
structure SinrMeasurement where
  timestamp : Nat
  ueID : Nat
  servingCellID : Nat
  servingSINR : ℚ
  servingPos : Option (ℚ × ℚ)
  neighbors : List NeighborPair
deriving DecidableEq

/-- A decoded measurement item of one delivery, after name matching and
`sscanf` parsing: a serving tuple or a neighbor-list tuple.  A failed
parse yields `UNKNOWN_ID` in both id fields. -/
inductive MeasItem where
  | serving (cellID ueID : Nat) (sinr : ℚ)
  | neigh (ueID cellID : Nat) (pairs : List NeighborPair)
deriving DecidableEq

/-- The serving-collection step of `log_kpm_measurements`
(`ue_localization_MA.c`): guarded by `cellID != UINT16_MAX && ueID !=
UINT16_MAX`, appends to `measurements` while fewer than 100 entries. -/
def collectServing1 (ts : Nat) (ms : List SinrMeasurement) :
    MeasItem → List SinrMeasurement
  | .serving c u s =>
    if c ≠ UNKNOWN_ID ∧ u ≠ UNKNOWN_ID then
      if ms.length < 100 then
        ms ++ [{ timestamp := ts, ueID := u, servingCellID := c,
                 servingSINR := s, servingPos := getCellPositionMA c,
                 neighbors := [] }]
      else ms
    else ms
  | .neigh _ _ _ => ms

/-- Append neighbor pairs while `num_neighbors < 10`. -/
def addPairs (cur : List NeighborPair) : List NeighborPair → List NeighborPair
  | [] => cur
  | p :: ps => if cur.length < 10 then addPairs (cur ++ [p]) ps else addPairs cur ps

/-- Attach neighbor pairs to the first collected measurement with a
matching `ueID` (the C loop `break`s after the first match). -/
def attachFirst (ms : List SinrMeasurement) (u : Nat)
    (ps : List NeighborPair) : List SinrMeasurement :=
  match ms with
  | [] => []
  | m :: rest =>
    if m.ueID = u then { m with neighbors := addPairs m.neighbors ps } :: rest
    else m :: attachFirst rest u ps

/-- The neighbor-collection step of `log_kpm_measurements`
(`ue_localization_MA.c`), with the same sentinel guard. -/
def collectNeigh1 (ms : List SinrMeasurement) :
    MeasItem → List SinrMeasurement
  | .serving _ _ _ => ms
  | .neigh u c ps =>
    if u ≠ UNKNOWN_ID ∧ c ≠ UNKNOWN_ID then attachFirst ms u ps else ms

/-- Both collection passes of `log_kpm_measurements` over one
delivery's items: first all serving tuples, then all neighbor-list
tuples. -/
def collectMeasurements (ts : Nat) (items : List MeasItem) :
    List SinrMeasurement :=
  items.foldl collectNeigh1 (items.foldl (collectServing1 ts) [])

/-- The per-measurement conversion of
`process_measurements_to_adaptive_windows`: sort the sample's neighbors
by SINR descending, keep the top-3 SINR values (0.0 when absent), and
take the serving position (0.0 when unknown). -/
def measurementToPoint (m : SinrMeasurement) : MeasurementPoint :=
  let sorted := sortDescQ (m.neighbors.map (fun nb => nb.sinr))
  { timestamp := m.timestamp
  , ueID := m.ueID
  , servingCellID := m.servingCellID
  , servingSINR := m.servingSINR
  , neighborSINR1 := sorted.getD 0 0
  , neighborSINR2 := sorted.getD 1 0
  , neighborSINR3 := sorted.getD 2 0
  , servingCellX := ((m.servingPos).map (fun c => c.1)).getD 0
  , servingCellY := ((m.servingPos).map (fun c => c.2)).getD 0 }

/-- `find_ue_window` + in-place update: apply `add_to_adaptive_window`'s
window body at the first window whose `ue_id` matches, if any. -/
def engineAddAux (p : MeasurementPoint) :
    List UeWindow → Option (List UeWindow × List BatchRecord)
  | [] => none
  | w :: rest =>
    if w.ue_id = p.ueID then
      some ((addPointToWindow w p).1 :: rest, (addPointToWindow w p).2)
    else
      (engineAddAux p rest).map (fun o => (w :: o.1, o.2))

/-- `add_to_adaptive_window` over the `ue_windows` array: find or (while
fewer than `MAX_UE_COUNT = 100` entries) create the UE's window, then
apply the window body. -/
def engineAdd (ws : List UeWindow) (p : MeasurementPoint) :
    List UeWindow × List BatchRecord :=
  match engineAddAux p ws with
  | some o => o
  | none =>
    if ws.length < 100 then
      ((ws ++ [(addPointToWindow (freshWindow p.ueID) p).1]),
       (addPointToWindow (freshWindow p.ueID) p).2)
    else (ws, [])

/-- `process_measurements_to_adaptive_windows`: convert and ingest every
collected measurement in order. -/
def processMeasurements (ws : List UeWindow) :
    List SinrMeasurement → List UeWindow × List BatchRecord
  | [] => (ws, [])
  | m :: rest =>
    let o := engineAdd ws (measurementToPoint m)
    let o2 := processMeasurements o.1 rest
    (o2.1, o.2 ++ o2.2)

/-- `log_kpm_measurements` of `ue_localization_MA.c` for one delivery:
collect serving and neighbor tuples, then feed the adaptive windows. -/
def ingestDelivery (ws : List UeWindow) (ts : Nat) (items : List MeasItem) :
    List UeWindow × List BatchRecord :=
  processMeasurements ws (collectMeasurements ts items)

/-- A delivery item carries a sentinel id when `parseServingMsg` /
`parseNeighMsg` failed (both ids are then `UINT16_MAX`, but the engine
guard tests each id separately, so either id being unknown is covered). -/
def itemSentinel : MeasItem → Prop
  | .serving c u _ => c = UNKNOWN_ID ∨ u = UNKNOWN_ID
  | .neigh u c _ => u = UNKNOWN_ID ∨ c = UNKNOWN_ID

instance (it : MeasItem) : Decidable (itemSentinel it) := by
  cases it <;> simp [itemSentinel] <;> infer_instance

/-- Following the spec's words (§4.2a): for each distinct neighbor link
seen during the window, the arithmetic mean of that link's metric over
the window's samples, the per-link averages then ranked descending and
padded to three slots.  This is the spec-side definition that claim C3
compares with the code's behaviour. -/
def specPerLinkRankedAvgSlots (ms : List SinrMeasurement) : ℚ × ℚ × ℚ :=
  let links : List Nat := ms.foldl
    (fun acc m => m.neighbors.foldl
      (fun a nb => if nb.id ∈ a then a else a ++ [nb.id]) acc) []
  let valuesOf : Nat → List ℚ := fun id =>
    (ms.map (fun m => (m.neighbors.filter (fun nb => nb.id = id)).map
      (fun nb => nb.sinr))).flatten
  let avgs := links.map (fun id => (valuesOf id).sum / ((valuesOf id).length : ℚ))
  let ranked := sortDescQ avgs
  (ranked.getD 0 0, ranked.getD 1 0, ranked.getD 2 0)

/- ===================================================================
   Model of the sequence-synchronized variant (ue_localization_MA_v2.c,
   WINDOW_SIZE = 1, TOTAL_UES = 28, MIN_NEIGHBORS_REQUIRED = 3)
   =================================================================== -/

/-- `MIN_NEIGHBORS_REQUIRED` of `ue_localization_MA_v2.c`. -/
def MIN_NEIGHBORS_REQUIRED : Nat := 3

/-- The burst-clock globals of `ue_localization_MA_v2.c`:
`current_sequence_timestamp`, `current_burst_ue_count`,
`burst_sequence_assigned[]` and `ue_sequence_timestamps[]`.  The cohort
size `TOTAL_UES` (compile-time constant 28 in the C file) is carried as
a field so the mechanism can be stated for any cohort size. -/
structure BurstState where
  totalUEs : Nat
  currentSeq : Nat
  burstCount : Nat
  seenB : Nat → Bool
  seqTs : Nat → Nat

/-- `assign_sequence_timestamp`: idempotent within a burst; on the
first call for a UE in a burst it records the UE and returns the
current sequence; once `burstCount` reaches `totalUEs` the sequence
advances by one and the seen flags are cleared. -/
def assignSeq (s : BurstState) (ue : Nat) : Nat × BurstState :=
  if s.seenB ue then (s.seqTs ue, s)
  else
    let seqTs1 := fun u => if u = ue then s.currentSeq else s.seqTs u
    if s.totalUEs ≤ s.burstCount + 1 then
      (seqTs1 ue,
       { s with seqTs := seqTs1, seenB := fun _ => false,
                burstCount := 0, currentSeq := s.currentSeq + 1 })
    else
      (seqTs1 ue,
       { s with seqTs := seqTs1,
                seenB := fun u => if u = ue then true else s.seenB u,
                burstCount := s.burstCount + 1 })

/-- `cell_positions` of the sequence-synchronized variant (int
coordinates). -/
def cellPositionsV2 : List (Nat × Int × Int) :=
  [(2, 800, 800), (3, 1300, 800), (4, 1050, 1233), (5, 550, 1233),
   (6, 300, 800), (7, 550, 366), (8, 1050, 366)]

/-- `get_cell_position` of the sequence-synchronized variant. -/
def getCellPositionV2 (cellID : Nat) : Option (Int × Int) :=
  (cellPositionsV2.find? (fun c => c.1 = cellID)).map (fun c => c.2)

/-- One slot of `measurement_history` (`WINDOW_SIZE = 1`, so the
circular buffer has a single slot and `current_idx` is always 0).  The
arrays `neighbor_ids` / `neighbor_sinrs` with `active_neighbor_count`
are modelled as a list of pairs (capped at 10 on insert). -/
structure HistEntry where
  serving_sinr : FP
  neighbors : List (Nat × FP)
deriving DecidableEq

/-- `ue_buffer_t` of the sequence-synchronized variant (the fields the
aggregation logic reads). -/
structure UeBuf where
  ueID : Nat
  servingCellID : Nat
  hist : HistEntry
  history_count : Nat
  last_timestamp : Nat
deriving DecidableEq

/-- A zeroed `ue_buffer_t` as made by `get_or_create_ue_buffer`
(`memset` to 0, then `ueID` set). -/
def freshBuf (ue : Nat) : UeBuf :=
  { ueID := ue, servingCellID := 0,
    hist := { serving_sinr := .fin 0, neighbors := [] },
    history_count := 0, last_timestamp := 0 }

/-- `add_serving_sample`: overwrite the single history slot (resetting
its neighbor count), advance the circular index (a no-op modulo 1) and
saturate `history_count` at `WINDOW_SIZE = 1`. -/
def addServingSample (b : UeBuf) (cellID : Nat) (sinr : FP) (ts : Nat) :
    UeBuf :=
  { b with servingCellID := cellID, last_timestamp := ts,
           hist := { serving_sinr := sinr, neighbors := [] },
           history_count := if b.history_count < 1 then b.history_count + 1
                            else b.history_count }

/-- `add_neighbor_sample`: ignore a neighbor equal to the serving cell,
otherwise append to the current history slot while fewer than 10
neighbors are stored. -/
def addNeighborSample (b : UeBuf) (neighCellID : Nat) (sinr : FP) : UeBuf :=
  if neighCellID = b.servingCellID then b
  else if b.hist.neighbors.length < 10 then
    { b with hist := { b.hist with
        neighbors := b.hist.neighbors ++ [(neighCellID, sinr)] } }
  else b

/-- `neighbor_data_t` of `check_and_send_ue_data`. -/
structure NbData where
  cellID : Nat
  sinr : ℚ
  x : Int
  y : Int
deriving DecidableEq

/-- Zero-initialised neighbor slot (the `top3_*` arrays start at 0). -/
def dfltNb : NbData := { cellID := 0, sinr := 0, x := 0, y := 0 }

/-- The valid-neighbor collection loop of `check_and_send_ue_data`:
skip candidates equal to the serving cell, NaN candidates and id 0;
stop once 10 are collected; resolve positions. -/
def collectValid (servingCellID : Nat) (l : List (Nat × FP)) : List NbData :=
  ((l.filter (fun nb =>
      !(nb.1 = servingCellID) && !nb.2.isNan && !(nb.1 = 0))).take 10).map
    (fun nb =>
      { cellID := nb.1, sinr := nb.2.toQ,
        x := ((getCellPositionV2 nb.1).map (fun c => c.1)).getD 0,
        y := ((getCellPositionV2 nb.1).map (fun c => c.2)).getD 0 })

/-- One pass of the inner exchange loop of `check_and_send_ue_data`'s
sort: the current element is compared against each later slot and
swapped whenever strictly smaller; returns the final current element
(the maximum) and the displaced tail. -/
def bubbleMax (x : NbData) : List NbData → NbData × List NbData
  | [] => (x, [])
  | y :: ys =>
    if x.sinr < y.sinr then
      ((bubbleMax y ys).1, x :: (bubbleMax y ys).2)
    else
      ((bubbleMax x ys).1, y :: (bubbleMax x ys).2)

/-- The double-loop exchange sort of `check_and_send_ue_data`
(descending by `sinr`), structured on a fuel equal to the number of
outer-loop iterations. -/
def exchangeSortAux : Nat → List NbData → List NbData
  | 0, _ => []
  | _ + 1, [] => []
  | n + 1, x :: xs => (bubbleMax x xs).1 :: exchangeSortAux n (bubbleMax x xs).2

/-- The neighbor sort of `check_and_send_ue_data`. -/
def exchangeSortNb (l : List NbData) : List NbData :=
  exchangeSortAux l.length l

/-- One emitted CSV line of the sequence-synchronized variant. -/
structure V2Record where
  seq : Nat
  ueID : Nat
  servingCellID : Nat
  sx : Int
  sy : Int
  servingSinr : ℚ
  n1 : NbData
  n2 : NbData
  n3 : NbData
deriving DecidableEq

/-- `check_and_send_ue_data`: skip on NaN serving SINR; collect and
sort valid neighbors; suppress the record entirely when fewer than
`MIN_NEIGHBORS_REQUIRED` valid neighbors exist; otherwise emit the
top 3. -/
def checkAndSend (b : UeBuf) (seqTs : Nat) : Option V2Record :=
  if b.hist.serving_sinr.isNan then none
  else
    let collected := collectValid b.servingCellID b.hist.neighbors
    let sorted := exchangeSortNb collected
    if collected.length < MIN_NEIGHBORS_REQUIRED then none
    else some
      { seq := seqTs, ueID := b.ueID, servingCellID := b.servingCellID,
        sx := ((getCellPositionV2 b.servingCellID).map (fun c => c.1)).getD 0,
        sy := ((getCellPositionV2 b.servingCellID).map (fun c => c.2)).getD 0,
        servingSinr := b.hist.serving_sinr.toQ,
        n1 := sorted.getD 0 dfltNb,
        n2 := sorted.getD 1 dfltNb,
        n3 := sorted.getD 2 dfltNb }

/-- A decoded measurement item of one delivery in the
sequence-synchronized variant (parsed serving or neighbor-list tuple;
metric values may be NaN). -/
inductive V2Item where
  | serving (cellID ueID : Nat) (sinr : FP)
  | neigh (ueID cellID : Nat) (pairs : List (Nat × FP))

/-- `get_or_create_ue_buffer` followed by a mutation of the returned
buffer: apply `f` at the first buffer with a matching `ueID`. -/
def applyExisting (f : UeBuf → UeBuf) (u : Nat) :
    List UeBuf → Option (List UeBuf)
  | [] => none
  | b :: bs =>
    if b.ueID = u then some (f b :: bs)
    else (applyExisting f u bs).map (fun r => b :: r)

/-- `get_or_create_ue_buffer` + mutation over the `ue_buffers` array:
mutate the existing buffer, or (while fewer than 28 are active) create
a zeroed buffer for the UE and mutate that; a full table drops the
sample. -/
def applyToUE (bufs : List UeBuf) (u : Nat) (f : UeBuf → UeBuf) :
    List UeBuf :=
  match applyExisting f u bufs with
  | some r => r
  | none => if bufs.length < 28 then bufs ++ [f (freshBuf u)] else bufs

/-- The serving-collection pass of the sequence-synchronized
`log_kpm_measurements` (sentinel ids skipped). -/
def v2Phase1 (ts : Nat) (bufs : List UeBuf) : List V2Item → List UeBuf
  | [] => bufs
  | .serving c u s :: items =>
    if c ≠ UNKNOWN_ID ∧ u ≠ UNKNOWN_ID then
      v2Phase1 ts (applyToUE bufs u (fun b => addServingSample b c s ts)) items
    else v2Phase1 ts bufs items
  | .neigh _ _ _ :: items => v2Phase1 ts bufs items

/-- The neighbor-collection pass of the sequence-synchronized
`log_kpm_measurements`. -/
def v2Phase2 (bufs : List UeBuf) : List V2Item → List UeBuf
  | [] => bufs
  | .serving _ _ _ :: items => v2Phase2 bufs items
  | .neigh u c ps :: items =>
    if u ≠ UNKNOWN_ID ∧ c ≠ UNKNOWN_ID then
      v2Phase2 (applyToUE bufs u
        (fun b => ps.foldl (fun b2 p => addNeighborSample b2 p.1 p.2) b)) items
    else v2Phase2 bufs items

/-- The per-UE emission loop closing the sequence-synchronized
`log_kpm_measurements`: for every active buffer with a non-empty
measurement history, assign a burst sequence and run
`check_and_send_ue_data`.  Besides the records, the list of UEs for
which `assign_sequence_timestamp` was invoked is returned. -/
def v2Phase3 (burst : BurstState) :
    List UeBuf → BurstState × List V2Record × List Nat
  | [] => (burst, [], [])
  | b :: bs =>
    if 0 < b.history_count then
      let a := assignSeq burst b.ueID
      let rest := v2Phase3 a.2 bs
      (rest.1, (checkAndSend b a.1).toList ++ rest.2.1, b.ueID :: rest.2.2)
    else v2Phase3 burst bs

/-- The engine state of the sequence-synchronized variant. -/
structure V2State where
  bufs : List UeBuf
  burst : BurstState

/-- Result of processing deliveries: final state, emitted records, and
the UEs that received burst-sequence assignments. -/
structure V2Out where
  st : V2State
  recs : List V2Record
  asg : List Nat

/-- One delivery of the sequence-synchronized variant: both collection
passes, then the emission loop. -/
def processDeliveryV2 (st : V2State) (ts : Nat) (items : List V2Item) :
    V2Out :=
  let bufs2 := v2Phase2 (v2Phase1 ts st.bufs items) items
  let o := v2Phase3 st.burst bufs2
  { st := { bufs := bufs2, burst := o.1 }, recs := o.2.1, asg := o.2.2 }

/-- A sequence of deliveries, each with its simulation timestamp. -/
def processDeliveriesV2 (st : V2State) :
    List (Nat × List V2Item) → V2Out
  | [] => { st := st, recs := [], asg := [] }
  | d :: ds =>
    let o1 := processDeliveryV2 st d.1 d.2
    let o2 := processDeliveriesV2 o1.st ds
    { st := o2.st, recs := o1.recs ++ o2.recs, asg := o1.asg ++ o2.asg }

/-- Every buffer of entity `e` (there is at most one) has an empty
measurement history. -/
def noHistoryFor (e : Nat) (bufs : List UeBuf) : Prop :=
  ∀ b ∈ bufs, b.ueID = e → b.history_count = 0

/-- A delivery item is a serving tuple for entity `e`. -/
def isServingFor (e : Nat) : V2Item → Prop
  | .serving _ u _ => u = e
  | .neigh _ _ _ => False

/- ===================================================================
   Concrete instances used by the claim theorems and witnesses
   =================================================================== -/

/-- A delivery-1 measurement for claim C3: UE 1 on serving cell 2, one
neighbor (link 5, SINR 10), at timestamp 0. -/
def cexMeasA : SinrMeasurement :=
  { timestamp := 0, ueID := 1, servingCellID := 2, servingSINR := 0,
    servingPos := getCellPositionMA 2, neighbors := [{ id := 5, sinr := 10 }] }

/-- A delivery-2 measurement for claim C3: same UE and serving cell,
one neighbor (link 6, SINR 20), at timestamp 5000 (closing the
window). -/
def cexMeasB : SinrMeasurement :=
  { timestamp := 5000, ueID := 1, servingCellID := 2, servingSINR := 0,
    servingPos := getCellPositionMA 2, neighbors := [{ id := 6, sinr := 20 }] }

/-- The records emitted when the two C3 measurements are processed in
successive deliveries. -/
def cexC3Records : List BatchRecord :=
  (processMeasurements (processMeasurements [] [cexMeasA]).1 [cexMeasB]).2

/-- Claim C4's candidate set inside a v2 UE buffer whose serving cell
is 2: candidates (5, 12.0), (6, 9.0), (serving 2, 99.0), (7, NaN). -/
def cexBufC4 : UeBuf :=
  { ueID := 1, servingCellID := 2,
    hist := { serving_sinr := .fin 10,
              neighbors := [(5, .fin 12), (6, .fin 9), (2, .fin 99), (7, .nan)] },
    history_count := 1, last_timestamp := 0 }

/-- Claim C5's candidate sequence: two equal-metric candidates (link 5
inserted before link 6, both metric 5.0) followed by a larger one
(link 7, metric 9.0). -/
def cexCandsC5 : List NbData :=
  [{ cellID := 5, sinr := 5, x := 550, y := 1233 },
   { cellID := 6, sinr := 5, x := 300, y := 800 },
   { cellID := 7, sinr := 9, x := 550, y := 366 }]

/-- An initial burst state with cohort size 3 (claim C6's example). -/
def burst3 : BurstState :=
  { totalUEs := 3, currentSeq := 0, burstCount := 0,
    seenB := fun _ => false, seqTs := fun _ => 0 }

/-- A burst state in mid-burst, used by the C6 witness: UE 1 already
recorded with sequence 4. -/
def burst3Mid : BurstState :=
  { totalUEs := 3, currentSeq := 4, burstCount := 1,
    seenB := fun u => u = 1, seqTs := fun u => if u = 1 then 4 else 0 }

/-- A burst state one registration away from completing its burst
(cohort 3, UEs 1 and 2 already recorded), used by the C6 witness. -/
def burst3Full : BurstState :=
  { totalUEs := 3, currentSeq := 4, burstCount := 2,
    seenB := fun u => u = 1 || u = 2,
    seqTs := fun u => if u = 1 || u = 2 then 4 else 0 }

/-- A window with one accumulated sample under serving cell 2, used by
the C1 witness. -/
def cexWinC1 : UeWindow :=
  { ue_id := 1, current_serving_cell := 2, window_start_time := 0,
    window_active := true,
    buffer := [{ timestamp := 0, ueID := 1, servingCellID := 2,
                 servingSINR := 7, neighborSINR1 := 3, neighborSINR2 := 2,
                 neighborSINR3 := 1, servingCellX := 800, servingCellY := 800 }] }

/-- A sample for UE 1 with serving cell 3 (differing from
`cexWinC1`'s), used by the C1 witness. -/
def cexPtC1 : MeasurementPoint :=
  { timestamp := 100, ueID := 1, servingCellID := 3, servingSINR := 9,
    neighborSINR1 := 4, neighborSINR2 := 3, neighborSINR3 := 2,
    servingCellX := 1200, servingCellY := 800 }

/-- A v2 UE buffer whose window has only two valid neighbors, used by
the C8 witness. -/
def cexBufC8 : UeBuf :=
  { ueID := 2, servingCellID := 4,
    hist := { serving_sinr := .fin 6,
              neighbors := [(3, .fin 11), (8, .fin 2)] },
    history_count := 1, last_timestamp := 0 }

/-- The serving sample driving the C9 overflow run: UE 1, serving cell
2, timestamp 0 (so the 5000 ms closure is never reached). -/
def cexPtC9 : MeasurementPoint :=
  { timestamp := 0, ueID := 1, servingCellID := 2, servingSINR := 3,
    neighborSINR1 := 0, neighborSINR2 := 0, neighborSINR3 := 0,
    servingCellX := 800, servingCellY := 800 }

/-- An initial sequence-synchronized engine state (cohort 28, as in the
C file), used by the C10 witness. -/
def v2Init : V2State :=
  { bufs := [],
    burst := { totalUEs := 28, currentSeq := 0, burstCount := 0,
               seenB := fun _ => false, seqTs := fun _ => 0 } }

/-- The C2 sample family: the i-th sample of one UE on serving cell c
at timestamp 1000 * i, with arbitrary metric values. -/
def c2pt (u c : Nat) (s : Nat → ℚ) (nb : Nat → Nat → ℚ)
    (g : Nat → ℚ × ℚ) (i : Nat) : MeasurementPoint :=
  { timestamp := 1000 * i, ueID := u, servingCellID := c,
    servingSINR := s i, neighborSINR1 := nb 1 i, neighborSINR2 := nb 2 i,
    neighborSINR3 := nb 3 i, servingCellX := (g i).1, servingCellY := (g i).2 }

/- ===================================================================
   Helper lemmas
   =================================================================== -/

theorem bubbleMax_length (x : NbData) (l : List NbData) :
    (bubbleMax x l).2.length = l.length := by
  induction l generalizing x with
  | nil => rfl
  | cons y ys ih =>
    by_cases h : x.sinr < y.sinr <;> simp [bubbleMax, h, ih]

theorem bubbleMax_perm (x : NbData) (l : List NbData) :
    ((bubbleMax x l).1 :: (bubbleMax x l).2).Perm (x :: l) := by
  induction l generalizing x with
  | nil => simp [bubbleMax]
  | cons y ys ih =>
    by_cases h : x.sinr < y.sinr
    · simp only [bubbleMax, if_pos h]
      have h1 := List.Perm.swap x (bubbleMax y ys).1 (bubbleMax y ys).2
      exact h1.trans ((ih y).cons x)
    · simp only [bubbleMax, if_neg h]
      have h1 := List.Perm.swap y (bubbleMax x ys).1 (bubbleMax x ys).2
      exact h1.trans (((ih x).cons y).trans (List.Perm.swap x y ys))

theorem bubbleMax_le (x : NbData) (l : List NbData) :
    x.sinr ≤ (bubbleMax x l).1.sinr := by
  induction l generalizing x with
  | nil => simp [bubbleMax]
  | cons y ys ih =>
    by_cases h : x.sinr < y.sinr
    · simp only [bubbleMax, if_pos h]
      exact le_of_lt (lt_of_lt_of_le h (ih y))
    · simp only [bubbleMax, if_neg h]
      exact ih x

theorem bubbleMax_rest_le (x : NbData) (l : List NbData) :
    ∀ z ∈ (bubbleMax x l).2, z.sinr ≤ (bubbleMax x l).1.sinr := by
  induction l generalizing x with
  | nil => simp [bubbleMax]
  | cons y ys ih =>
    by_cases h : x.sinr < y.sinr
    · simp only [bubbleMax, if_pos h]
      intro z hz
      rcases List.mem_cons.mp hz with hz | hz
      · exact hz ▸ le_of_lt (lt_of_lt_of_le h (bubbleMax_le y ys))
      · exact ih y z hz
    · simp only [bubbleMax, if_neg h]
      intro z hz
      rcases List.mem_cons.mp hz with hz | hz
      · exact hz ▸ le_trans (not_lt.mp h) (bubbleMax_le x ys)
      · exact ih x z hz

theorem exchangeSortAux_perm :
    ∀ (n : Nat) (l : List NbData), l.length ≤ n →
      (exchangeSortAux n l).Perm l := by
  intro n
  induction n with
  | zero =>
    intro l hl
    rw [List.length_eq_zero.mp (Nat.le_zero.mp hl)]
    rfl
  | succ n ih =>
    intro l hl
    cases l with
    | nil => rfl
    | cons x xs =>
      simp only [exchangeSortAux]
      have hlen : (bubbleMax x xs).2.length ≤ n := by
        rw [bubbleMax_length]
        simpa using Nat.lt_succ_iff.mp (Nat.lt_of_lt_of_le (Nat.lt_succ_self _) hl)
      exact ((ih (bubbleMax x xs).2 hlen).cons (bubbleMax x xs).1).trans
        (bubbleMax_perm x xs)

theorem exchangeSortAux_sorted :
    ∀ (n : Nat) (l : List NbData), l.length ≤ n →
      List.Sorted (fun a b : NbData => b.sinr ≤ a.sinr) (exchangeSortAux n l) := by
  intro n
  induction n with
  | zero =>
    intro l _
    simp [exchangeSortAux]
  | succ n ih =>
    intro l hl
    cases l with
    | nil => simp [exchangeSortAux]
    | cons x xs =>
      simp only [exchangeSortAux]
      have hlen : (bubbleMax x xs).2.length ≤ n := by
        rw [bubbleMax_length]
        simpa using Nat.lt_succ_iff.mp (Nat.lt_of_lt_of_le (Nat.lt_succ_self _) hl)
      refine List.sorted_cons.mpr ⟨?_, ih _ hlen⟩
      intro b hb
      have hmem : b ∈ (bubbleMax x xs).2 :=
        (exchangeSortAux_perm n _ hlen).mem_iff.mp hb
      exact bubbleMax_rest_le x xs b hmem

theorem checkAndSend_ueID (b : UeBuf) (s : Nat) (r : V2Record)
    (h : checkAndSend b s = some r) : r.ueID = b.ueID := by
  unfold checkAndSend at h
  by_cases h1 : b.hist.serving_sinr.isNan = true
  · simp [h1] at h
  · simp only [h1, if_neg, Bool.not_eq_true, if_false] at h
    split at h
    · exact absurd h (by simp)
    · cases h
      rfl

theorem addNeighborSample_history_count (b : UeBuf) (id : Nat) (s : FP) :
    (addNeighborSample b id s).history_count = b.history_count := by
  unfold addNeighborSample
  split
  · rfl
  · split <;> rfl

/- ===================================================================
   Claim theorems
   =================================================================== -/

/-- C1: for every entity window holding at least one accumulated sample
under serving link L, ingesting a sample for that entity with a
different serving link emits exactly one batch record summarising the
accumulated samples under L, after which the window contains only the
new sample, seeded as its first member (new serving cell, new window
start time). -/
theorem C1_serving_link_change_flush (w : UeWindow) (p : MeasurementPoint)
    (hn : 1 ≤ w.buffer.length)
    (hl : w.current_serving_cell ≠ p.servingCellID) :
    addPointToWindow w p =
      ({ w with current_serving_cell := p.servingCellID,
                window_start_time := p.timestamp,
                window_active := true, buffer := [p] },
       [mkBatchRecord w]) ∧
    (mkBatchRecord w).servingCellID = w.current_serving_cell := by
  have h0 : ¬(w.buffer.length = 0 ∨ w.current_serving_cell = p.servingCellID) := by
    push_neg
    exact ⟨by omega, hl⟩
  have h1 : ¬w.buffer.length = 0 := by omega
  constructor
  · unfold addPointToWindow
    rw [if_neg h0]
    simp [resetWindow, sendWindowBatch, h1]
  · rfl

/-- Witness for C1 at a window holding one sample under serving cell 2
and an incoming sample with serving cell 3. -/
theorem C1_serving_link_change_flush_witness :
    1 ≤ cexWinC1.buffer.length ∧
    cexWinC1.current_serving_cell ≠ cexPtC1.servingCellID ∧
    (addPointToWindow cexWinC1 cexPtC1 =
      ({ cexWinC1 with current_serving_cell := cexPtC1.servingCellID,
                       window_start_time := cexPtC1.timestamp,
                       window_active := true, buffer := [cexPtC1] },
       [mkBatchRecord cexWinC1]) ∧
     (mkBatchRecord cexWinC1).servingCellID = cexWinC1.current_serving_cell) :=
  ⟨by decide, by decide,
   C1_serving_link_change_flush cexWinC1 cexPtC1 (by decide) (by decide)⟩


/-- Stepping lemma: a sample arriving at an empty window seeds it and
never closes it immediately (the elapsed time is 0). -/
theorem addPoint_seed (w : UeWindow) (p : MeasurementPoint)
    (h : w.buffer = []) :
    addPointToWindow w p =
      ({ w with current_serving_cell := p.servingCellID,
                window_start_time := p.timestamp, window_active := true,
                buffer := [p] }, []) := by
  have hm : u64sub p.timestamp p.timestamp = 0 := by
    unfold u64sub
    omega
  unfold addPointToWindow
  rw [if_pos (Or.inl (by simp [h]))]
  simp [h, hm]

/-- Stepping lemma: a same-serving-cell sample below the 5000 ms
threshold is appended without emission. -/
theorem addPoint_append (w : UeWindow) (p : MeasurementPoint)
    (h : ¬w.buffer.length = 0)
    (hc : w.current_serving_cell = p.servingCellID)
    (hlt : u64sub p.timestamp w.window_start_time < 5000) :
    addPointToWindow w p = ({ w with buffer := w.buffer ++ [p] }, []) := by
  unfold addPointToWindow
  rw [if_pos (Or.inr hc)]
  simp [h, not_le.mpr hlt]

/-- Stepping lemma: a same-serving-cell sample at or beyond the 5000 ms
threshold is appended, the whole window (new sample included) is
emitted, and the window is reset. -/
theorem addPoint_closeTime (w : UeWindow) (p : MeasurementPoint)
    (h : ¬w.buffer.length = 0)
    (hc : w.current_serving_cell = p.servingCellID)
    (hge : 5000 ≤ u64sub p.timestamp w.window_start_time) :
    addPointToWindow w p =
      (resetWindow { w with buffer := w.buffer ++ [p] } p.timestamp,
       [mkBatchRecord { w with buffer := w.buffer ++ [p] }]) := by
  unfold addPointToWindow
  rw [if_pos (Or.inr hc)]
  simp [h, hge, sendWindowBatch]

/-- C2: with the 5000 ms threshold, six samples for one UE at
timestamps 0, 1000, ..., 5000 under the same serving link close the
window exactly at the ingest of the sample with timestamp 5000 (no
record is emitted for the first five samples; the closing record,
produced after that sample is appended, averages all six serving
metrics; and the window is reset afterwards). -/
theorem C2_time_threshold_close (u c : Nat) (s : Nat → ℚ)
    (nb : Nat → Nat → ℚ) (g : Nat → ℚ × ℚ) :
    (ingestListW (freshWindow u)
      [c2pt u c s nb g 0, c2pt u c s nb g 1, c2pt u c s nb g 2,
       c2pt u c s nb g 3, c2pt u c s nb g 4]).2 = [] ∧
    ((ingestListW (freshWindow u)
      [c2pt u c s nb g 0, c2pt u c s nb g 1, c2pt u c s nb g 2,
       c2pt u c s nb g 3, c2pt u c s nb g 4, c2pt u c s nb g 5]).2.map
        (fun r => r.avgServingSINR))
      = [(s 0 + s 1 + s 2 + s 3 + s 4 + s 5) / 6] ∧
    (ingestListW (freshWindow u)
      [c2pt u c s nb g 0, c2pt u c s nb g 1, c2pt u c s nb g 2,
       c2pt u c s nb g 3, c2pt u c s nb g 4, c2pt u c s nb g 5]).2.length = 1 ∧
    (ingestListW (freshWindow u)
      [c2pt u c s nb g 0, c2pt u c s nb g 1, c2pt u c s nb g 2,
       c2pt u c s nb g 3, c2pt u c s nb g 4, c2pt u c s nb g 5]).1.buffer = [] := by
  have t0 : u64sub 0 0 = 0 := by norm_num [u64sub]
  have t1 : u64sub 1000 0 = 1000 := by norm_num [u64sub]
  have t2 : u64sub 2000 0 = 2000 := by norm_num [u64sub]
  have t3 : u64sub 3000 0 = 3000 := by norm_num [u64sub]
  have t4 : u64sub 4000 0 = 4000 := by norm_num [u64sub]
  have t5 : u64sub 5000 0 = 5000 := by norm_num [u64sub]
  refine ⟨?_, ?_, ?_, ?_⟩
  · simp [ingestListW, addPoint_seed, addPoint_append, addPoint_closeTime,
      c2pt, freshWindow, t0, t1, t2, t3, t4]
  · simp [ingestListW, addPoint_seed, addPoint_append, addPoint_closeTime,
      c2pt, freshWindow, resetWindow, mkBatchRecord, t0, t1, t2, t3, t4, t5]
    ring_nf
  · simp [ingestListW, addPoint_seed, addPoint_append, addPoint_closeTime,
      c2pt, freshWindow, resetWindow, t0, t1, t2, t3, t4, t5]
  · simp [ingestListW, addPoint_seed, addPoint_append, addPoint_closeTime,
      c2pt, freshWindow, resetWindow, t0, t1, t2, t3, t4, t5]

/-- C7: a delivery consisting of a sample whose entity or link id
parsed to the sentinel unknown value is a silent no-op of the
time-bounded engine: no window is created, no window is mutated, and
no record is emitted. -/
theorem C7_sentinel_noop (ws : List UeWindow) (ts : Nat) (it : MeasItem)
    (h : itemSentinel it) :
    ingestDelivery ws ts [it] = (ws, []) := by
  cases it with
  | serving c u s =>
    have h2 : c = UNKNOWN_ID ∨ u = UNKNOWN_ID := h
    have hg : ¬(c ≠ UNKNOWN_ID ∧ u ≠ UNKNOWN_ID) :=
      fun hand => h2.elim (fun hc => hand.1 hc) (fun hu => hand.2 hu)
    simp [ingestDelivery, collectMeasurements, collectServing1, collectNeigh1,
      hg, processMeasurements]
  | neigh u c ps =>
    have h2 : u = UNKNOWN_ID ∨ c = UNKNOWN_ID := h
    have hg : ¬(u ≠ UNKNOWN_ID ∧ c ≠ UNKNOWN_ID) :=
      fun hand => h2.elim (fun hu => hand.1 hu) (fun hc => hand.2 hc)
    simp [ingestDelivery, collectMeasurements, collectServing1, collectNeigh1,
      hg, processMeasurements]

/-- Witness for C7 at a serving tuple whose ids failed to parse. -/
theorem C7_sentinel_noop_witness :
    itemSentinel (MeasItem.serving UNKNOWN_ID UNKNOWN_ID 5) ∧
    ingestDelivery [freshWindow 1] 0
      [MeasItem.serving UNKNOWN_ID UNKNOWN_ID 5] = ([freshWindow 1], []) :=
  ⟨Or.inl rfl,
   C7_sentinel_noop [freshWindow 1] 0
     (MeasItem.serving UNKNOWN_ID UNKNOWN_ID 5) (Or.inl rfl)⟩

/-- C8: in the sequence-synchronized variant, a window whose valid
ranked neighbors (not the serving link, not NaN, nonzero link id)
number fewer than `MIN_NEIGHBORS_REQUIRED = 3` produces no emitted
record at all. -/
theorem C8_min_neighbor_suppression (b : UeBuf) (seqTs : Nat)
    (h : (collectValid b.servingCellID b.hist.neighbors).length <
          MIN_NEIGHBORS_REQUIRED) :
    checkAndSend b seqTs = none := by
  unfold checkAndSend
  by_cases h1 : b.hist.serving_sinr.isNan = true
  · simp [h1]
  · rw [if_neg h1]
    simp [h]

/-- Witness for C8 at a buffer holding two valid neighbors. -/
theorem C8_min_neighbor_suppression_witness :
    (collectValid cexBufC8.servingCellID cexBufC8.hist.neighbors).length <
      MIN_NEIGHBORS_REQUIRED ∧
    checkAndSend cexBufC8 0 = none :=
  ⟨by decide, C8_min_neighbor_suppression cexBufC8 0 (by decide)⟩

/-- C6: the burst clock is idempotent within a burst (a repeated
`assign` returns the already-assigned sequence and leaves the state
unchanged), a first `assign` in a burst returns the current sequence
and records the entity, and when the count of distinct recorded
entities reaches the cohort size the sequence advances by exactly one
and the seen-set is cleared; with cohort size 3 the calls
assign(1), assign(2), assign(1), assign(3) all return 0 and the next
assign returns 1. -/
theorem C6_burst_clock :
    (∀ (s : BurstState) (ue : Nat), s.seenB ue = true →
       assignSeq s ue = (s.seqTs ue, s)) ∧
    (∀ (s : BurstState) (ue : Nat), s.seenB ue = false →
       (assignSeq s ue).1 = s.currentSeq) ∧
    (∀ (s : BurstState) (ue : Nat), s.seenB ue = false →
       s.burstCount + 1 < s.totalUEs →
       (assignSeq s ue).2.currentSeq = s.currentSeq ∧
       (assignSeq s ue).2.seenB ue = true ∧
       (assignSeq s ue).2.burstCount = s.burstCount + 1 ∧
       (∀ u2, u2 ≠ ue → (assignSeq s ue).2.seenB u2 = s.seenB u2) ∧
       (assignSeq s ue).2.seqTs ue = s.currentSeq) ∧
    (∀ (s : BurstState) (ue : Nat), s.seenB ue = false →
       s.totalUEs ≤ s.burstCount + 1 →
       (assignSeq s ue).1 = s.currentSeq ∧
       (assignSeq s ue).2.currentSeq = s.currentSeq + 1 ∧
       (∀ u2, (assignSeq s ue).2.seenB u2 = false) ∧
       (assignSeq s ue).2.burstCount = 0) ∧
    ((assignSeq burst3 1).1 = 0 ∧
     (assignSeq (assignSeq burst3 1).2 2).1 = 0 ∧
     (assignSeq (assignSeq (assignSeq burst3 1).2 2).2 1).1 = 0 ∧
     (assignSeq (assignSeq (assignSeq (assignSeq burst3 1).2 2).2 1).2 3).1 = 0 ∧
     (assignSeq (assignSeq (assignSeq (assignSeq
        (assignSeq burst3 1).2 2).2 1).2 3).2 1).1 = 1) := by
  refine ⟨?_, ?_, ?_, ?_, ?_⟩
  · intro s ue h
    simp [assignSeq, h]
  · intro s ue h
    by_cases h2 : s.totalUEs ≤ s.burstCount + 1 <;> simp [assignSeq, h, h2]
  · intro s ue h h2
    have h3 : ¬s.totalUEs ≤ s.burstCount + 1 := by omega
    refine ⟨by simp [assignSeq, h, h3], by simp [assignSeq, h, h3],
      by simp [assignSeq, h, h3], ?_, by simp [assignSeq, h, h3]⟩
    intro u2 hu2
    simp [assignSeq, h, h3, hu2]
  · intro s ue h h2
    exact ⟨by simp [assignSeq, h, h2], by simp [assignSeq, h, h2],
      fun u2 => by simp [assignSeq, h, h2], by simp [assignSeq, h, h2]⟩
  · decide

/-- Witness for C6: the general clauses applied at concrete burst
states (a mid-burst repeat for UE 1, a first assignment for UE 2, and
the burst-completing assignment for UE 3 in a cohort of 3). -/
theorem C6_burst_clock_witness :
    (burst3Mid.seenB 1 = true ∧
     assignSeq burst3Mid 1 = (burst3Mid.seqTs 1, burst3Mid)) ∧
    (burst3Mid.seenB 2 = false ∧
     (assignSeq burst3Mid 2).1 = burst3Mid.currentSeq) ∧
    (burst3Mid.burstCount + 1 < burst3Mid.totalUEs ∧
     (assignSeq burst3Mid 2).2.burstCount = burst3Mid.burstCount + 1) ∧
    (burst3Full.seenB 3 = false ∧
     burst3Full.totalUEs ≤ burst3Full.burstCount + 1 ∧
     (assignSeq burst3Full 3).1 = burst3Full.currentSeq ∧
     (assignSeq burst3Full 3).2.currentSeq = burst3Full.currentSeq + 1 ∧
     (assignSeq burst3Full 3).2.burstCount = 0) :=
  ⟨⟨by decide, C6_burst_clock.1 burst3Mid 1 (by decide)⟩,
   ⟨by decide, C6_burst_clock.2.1 burst3Mid 2 (by decide)⟩,
   ⟨by decide,
    (C6_burst_clock.2.2.1 burst3Mid 2 (by decide) (by decide)).2.2.1⟩,
   ⟨by decide, by decide,
    (C6_burst_clock.2.2.2.1 burst3Full 3 (by decide) (by decide)).1,
    (C6_burst_clock.2.2.2.1 burst3Full 3 (by decide) (by decide)).2.1,
    (C6_burst_clock.2.2.2.1 burst3Full 3 (by decide) (by decide)).2.2.2⟩⟩

/-- Ingesting identical timestamp-0 samples under serving cell 2 only
ever appends: the window never closes and no record is emitted, so the
sample count grows without bound. -/
theorem ingest_replicate_grows (n : Nat) : ∀ (w : UeWindow),
    w.current_serving_cell = 2 → w.window_start_time = 0 → w.buffer ≠ [] →
    (ingestListW w (List.replicate n cexPtC9)).1.current_serving_cell = 2 ∧
    (ingestListW w (List.replicate n cexPtC9)).1.window_start_time = 0 ∧
    (ingestListW w (List.replicate n cexPtC9)).1.buffer.length
      = w.buffer.length + n ∧
    (ingestListW w (List.replicate n cexPtC9)).2 = [] := by
  induction n with
  | zero =>
    intro w h1 h2 h3
    simp [ingestListW, h1, h2]
  | succ n ih =>
    intro w h1 h2 h3
    have hstep : addPointToWindow w cexPtC9 =
        ({ w with buffer := w.buffer ++ [cexPtC9] }, []) := by
      apply addPoint_append
      · simpa using h3
      · rw [h1]
        decide
      · rw [h2]
        norm_num [u64sub, cexPtC9]
    have hrec := ih { w with buffer := w.buffer ++ [cexPtC9] }
      (by simpa using h1) (by simpa using h2) (by simp)
    rw [List.replicate_succ]
    simp only [ingestListW, hstep]
    refine ⟨by simpa using hrec.1, by simpa using hrec.2.1, ?_,
      by simpa using hrec.2.2.2⟩
    have hlen := hrec.2.2.1
    simp only [List.length_append, List.length_cons, List.length_nil] at hlen ⊢
    omega

/-- Unfolding equation of `ingestListW` on a cons cell (stated so that
a single rewrite step avoids unfolding the tail). -/
theorem ingestListW_cons (w : UeWindow) (p : MeasurementPoint)
    (ps : List MeasurementPoint) :
    ingestListW w (p :: ps) =
      ((ingestListW (addPointToWindow w p).1 ps).1,
       (addPointToWindow w p).2 ++ (ingestListW (addPointToWindow w p).1 ps).2) :=
  rfl

/-- C9: the claim that an ingest beyond the 200-entry window capacity
is rejected fails on the code: `add_to_adaptive_window` appends with no
bounds check, so 201 same-cell samples sharing timestamp 0 (all inside
one 5000 ms window) drive the sample count to 201 > 200 with no
emission and no rejection — in C this is an out-of-bounds write into
`buffer[200]`. -/
theorem C9_capacity_unchecked :
    (ingestListW (freshWindow 1) (List.replicate 201 cexPtC9)).1.buffer.length
      = 201 ∧
    WINDOW_CAPACITY <
      (ingestListW (freshWindow 1)
        (List.replicate 201 cexPtC9)).1.buffer.length ∧
    (ingestListW (freshWindow 1) (List.replicate 201 cexPtC9)).2 = [] := by
  have hrec := ingest_replicate_grows 200
    (addPointToWindow (freshWindow 1) cexPtC9).1
    (by decide) (by decide) (by decide)
  have hbase : (addPointToWindow (freshWindow 1) cexPtC9).1.buffer.length = 1 := by
    decide
  have hrecs0 : (addPointToWindow (freshWindow 1) cexPtC9).2 = [] := by
    decide
  rw [show (201 : Nat) = 200 + 1 from rfl, List.replicate_succ,
    ingestListW_cons]
  refine ⟨?_, ?_, ?_⟩
  · rw [hrec.2.2.1, hbase]
  · rw [hrec.2.2.1, hbase]
    decide
  · rw [hrecs0, hrec.2.2.2]
    rfl

/-- C3 counterexample: for the window of the two measurements
`cexMeasA` (neighbor link 5 at 10) and `cexMeasB` (neighbor link 6 at
20), the code emits first-neighbor value 15 (the slot-wise mean of the
per-sample top values 10 and 20), while the spec's
per-link-average-then-rank recipe yields 20 — so the emitted neighbor
slot does not equal the largest per-link average. -/
theorem C3_per_link_rank_counterexample :
    cexC3Records.map (fun r => r.avgNeighbor1) = [15] ∧
    (specPerLinkRankedAvgSlots [cexMeasA, cexMeasB]).1 = 20 ∧
    cexC3Records.map (fun r => r.avgNeighbor1) ≠
      [(specPerLinkRankedAvgSlots [cexMeasA, cexMeasB]).1] := by
  have h1 : cexC3Records.map (fun r => r.avgNeighbor1) = [15] := by
    norm_num [cexC3Records, processMeasurements, engineAdd, engineAddAux,
      measurementToPoint, cexMeasA, cexMeasB, sortDescQ, mkBatchRecord,
      freshWindow, resetWindow, addPointToWindow, u64sub, sendWindowBatch,
      getCellPositionMA, cellPositionsMA, List.find?]
  have h2 : (specPerLinkRankedAvgSlots [cexMeasA, cexMeasB]).1 = 20 := by
    norm_num [specPerLinkRankedAvgSlots, cexMeasA, cexMeasB, sortDescQ,
      List.find?]
  refine ⟨h1, h2, ?_⟩
  rw [h1, h2]
  norm_num

/-- C3 amended: in the time-bounded variant each sample's neighbor
metrics are ranked descending per sample with the top-3 values kept
(slot 1 holds the sample's maximum neighbor metric), and an emitted
record's neighbor slot j is the arithmetic mean over the window's
samples of the per-sample j-th-largest neighbor metric (0 when a sample
has fewer than j neighbors) — not the ranking of per-link averages. -/
theorem C3_slotwise_average (ms : List SinrMeasurement) (u c t : Nat)
    (act : Bool) :
    ((mkBatchRecord
      { ue_id := u, current_serving_cell := c, window_start_time := t,
        window_active := act,
        buffer := ms.map measurementToPoint }).avgNeighbor1 =
      (ms.map (fun m =>
        (sortDescQ (m.neighbors.map (fun nb => nb.sinr))).getD 0 0)).sum
        / (ms.length : ℚ) ∧
     (mkBatchRecord
      { ue_id := u, current_serving_cell := c, window_start_time := t,
        window_active := act,
        buffer := ms.map measurementToPoint }).avgNeighbor2 =
      (ms.map (fun m =>
        (sortDescQ (m.neighbors.map (fun nb => nb.sinr))).getD 1 0)).sum
        / (ms.length : ℚ) ∧
     (mkBatchRecord
      { ue_id := u, current_serving_cell := c, window_start_time := t,
        window_active := act,
        buffer := ms.map measurementToPoint }).avgNeighbor3 =
      (ms.map (fun m =>
        (sortDescQ (m.neighbors.map (fun nb => nb.sinr))).getD 2 0)).sum
        / (ms.length : ℚ)) ∧
    (∀ m : SinrMeasurement, m.neighbors ≠ [] →
      (measurementToPoint m).neighborSINR1 ∈
        m.neighbors.map (fun nb => nb.sinr) ∧
      ∀ v ∈ m.neighbors.map (fun nb => nb.sinr),
        v ≤ (measurementToPoint m).neighborSINR1) := by
  constructor
  · refine ⟨?_, ?_, ?_⟩ <;>
      · simp only [mkBatchRecord, List.map_map, List.length_map]
        congr 1
  · intro m hm
    haveI hTot : IsTotal ℚ (fun a b : ℚ => b ≤ a) := ⟨fun a b => le_total b a⟩
    haveI hTrans : IsTrans ℚ (fun a b : ℚ => b ≤ a) :=
      ⟨fun _ _ _ hab hbc => le_trans hbc hab⟩
    have hperm : (sortDescQ (m.neighbors.map (fun nb => nb.sinr))).Perm
        (m.neighbors.map (fun nb => nb.sinr)) :=
      List.perm_insertionSort _ _
    have hsorted : List.Sorted (fun a b : ℚ => b ≤ a)
        (sortDescQ (m.neighbors.map (fun nb => nb.sinr))) :=
      List.sorted_insertionSort _ _
    have hslot : (measurementToPoint m).neighborSINR1 =
        (sortDescQ (m.neighbors.map (fun nb => nb.sinr))).getD 0 0 := rfl
    cases hs : sortDescQ (m.neighbors.map (fun nb => nb.sinr)) with
    | nil =>
      exfalso
      apply hm
      have hlen := hperm.length_eq
      rw [hs] at hlen
      simpa using (List.map_eq_nil_iff.mp
        (List.length_eq_zero.mp hlen.symm))
    | cons x xs =>
      rw [hslot, hs]
      simp only [List.getD_cons_zero]
      constructor
      · exact hperm.mem_iff.mp (hs ▸ List.mem_cons_self x xs)
      · intro v hv
        have hv2 : v ∈ x :: xs := hs ▸ hperm.mem_iff.mpr hv
        rcases List.mem_cons.mp hv2 with h | h
        · exact le_of_eq h
        · rw [hs] at hsorted
          exact List.rel_of_sorted_cons hsorted v h

/-- Witness for C3's amended theorem at the counterexample sample. -/
theorem C3_slotwise_average_witness :
    cexMeasA.neighbors ≠ [] ∧
    (measurementToPoint cexMeasA).neighborSINR1 ∈
      cexMeasA.neighbors.map (fun nb => nb.sinr) :=
  ⟨by decide,
   ((C3_slotwise_average [cexMeasA, cexMeasB] 1 2 0 true).2 cexMeasA
     (by decide)).1⟩

/-- C4 counterexample: for the candidate set
[(5, 12.0), (6, 9.0), (serving, 99.0), (7, NaN)] the claim expects a
returned ranked list [(5, 12.0), (6, 9.0)] with the absent third slot
rendered as the sentinel (0, 0.0); the sequence-synchronized code
instead suppresses the record entirely (only 2 valid neighbors remain,
below MIN_NEIGHBORS_REQUIRED = 3), so no ranked output is produced at
all. -/
theorem C4_sentinel_pad_counterexample :
    checkAndSend cexBufC4 0 = none := by decide

/-- C4 amended: the ranking does exclude the serving-link candidate and
the NaN candidate (and id 0), yielding [(5, 12.0), (6, 9.0)] ranked;
but because fewer than MIN_NEIGHBORS_REQUIRED = 3 valid candidates
remain, the record is suppressed entirely rather than emitted with a
sentinel-padded third slot. -/
theorem C4_exclusion_then_suppression :
    (collectValid cexBufC4.servingCellID cexBufC4.hist.neighbors).map
      (fun nb => (nb.cellID, nb.sinr)) = [(5, 12), (6, 9)] ∧
    (exchangeSortNb
      (collectValid cexBufC4.servingCellID cexBufC4.hist.neighbors)).map
      (fun nb => (nb.cellID, nb.sinr)) = [(5, 12), (6, 9)] ∧
    (collectValid cexBufC4.servingCellID cexBufC4.hist.neighbors).length <
      MIN_NEIGHBORS_REQUIRED ∧
    checkAndSend cexBufC4 0 = none := by decide

/-- C5 counterexample: the exchange sort of the sequence-synchronized
variant is not stable: for candidates inserted in the order
(5, 5.0), (6, 5.0), (7, 9.0) — the first two with equal metric — the
sorted output is [(7, 9.0), (6, 5.0), (5, 5.0)], placing the
later-inserted link 6 before the earlier-inserted link 5. -/
theorem C5_stability_counterexample :
    cexCandsC5.map (fun nb => (nb.cellID, nb.sinr))
      = [(5, 5), (6, 5), (7, 9)] ∧
    (exchangeSortNb cexCandsC5).map (fun nb => (nb.cellID, nb.sinr))
      = [(7, 9), (6, 5), (5, 5)] := by decide

/-- C5 amended: the neighbor ranking is a deterministic descending sort
(the output is a permutation of the candidates, sorted by metric
descending), but ties are not broken by insertion order — the exchange
sort can reverse a tied pair, as the counterexample shows. -/
theorem C5_descending_sort (l : List NbData) :
    (exchangeSortNb l).Perm l ∧
    List.Sorted (fun a b : NbData => b.sinr ≤ a.sinr) (exchangeSortNb l) :=
  ⟨exchangeSortAux_perm l.length l le_rfl,
   exchangeSortAux_sorted l.length l le_rfl⟩

theorem addNeighborSample_ueID (b : UeBuf) (id : Nat) (s : FP) :
    (addNeighborSample b id s).ueID = b.ueID := by
  unfold addNeighborSample
  split
  · rfl
  · split <;> rfl

theorem addServingSample_ueID (b : UeBuf) (c : Nat) (s : FP) (ts : Nat) :
    (addServingSample b c s ts).ueID = b.ueID := rfl

theorem foldNb_preserves (ps : List (Nat × FP)) : ∀ (b : UeBuf),
    (ps.foldl (fun b2 p => addNeighborSample b2 p.1 p.2) b).ueID = b.ueID ∧
    (ps.foldl (fun b2 p => addNeighborSample b2 p.1 p.2) b).history_count
      = b.history_count := by
  induction ps with
  | nil => intro b; exact ⟨rfl, rfl⟩
  | cons p ps ih =>
    intro b
    simp only [List.foldl_cons]
    obtain ⟨h1, h2⟩ := ih (addNeighborSample b p.1 p.2)
    exact ⟨h1.trans (addNeighborSample_ueID b p.1 p.2),
           h2.trans (addNeighborSample_history_count b p.1 p.2)⟩

theorem mem_applyExisting (f : UeBuf → UeBuf) (u : Nat) :
    ∀ (bufs r : List UeBuf), applyExisting f u bufs = some r →
      ∀ x ∈ r, x ∈ bufs ∨ ∃ b, b ∈ bufs ∧ b.ueID = u ∧ x = f b := by
  intro bufs
  induction bufs with
  | nil =>
    intro r hr
    simp [applyExisting] at hr
  | cons b bs ih =>
    intro r hr x hx
    by_cases hb : b.ueID = u
    · rw [applyExisting, if_pos hb] at hr
      cases hr
      rcases List.mem_cons.mp hx with hx | hx
      · exact Or.inr ⟨b, List.mem_cons_self b bs, hb, hx⟩
      · exact Or.inl (List.mem_cons_of_mem _ hx)
    · rw [applyExisting, if_neg hb] at hr
      rcases Option.map_eq_some'.mp hr with ⟨r2, hr2, hr3⟩
      subst hr3
      rcases List.mem_cons.mp hx with hx | hx
      · exact Or.inl (hx ▸ List.mem_cons_self b bs)
      · rcases ih r2 hr2 x hx with h | ⟨b2, hb2, hbu, hxf⟩
        · exact Or.inl (List.mem_cons_of_mem _ h)
        · exact Or.inr ⟨b2, List.mem_cons_of_mem _ hb2, hbu, hxf⟩

theorem mem_applyToUE (bufs : List UeBuf) (u : Nat) (f : UeBuf → UeBuf) :
    ∀ x ∈ applyToUE bufs u f,
      x ∈ bufs ∨ (∃ b, b ∈ bufs ∧ b.ueID = u ∧ x = f b) ∨
        x = f (freshBuf u) := by
  intro x hx
  unfold applyToUE at hx
  cases hae : applyExisting f u bufs with
  | some r =>
    rw [hae] at hx
    rcases mem_applyExisting f u bufs r hae x hx with h | h
    · exact Or.inl h
    · exact Or.inr (Or.inl h)
  | none =>
    rw [hae] at hx
    by_cases hlen : bufs.length < 28
    · rw [if_pos hlen] at hx
      rcases List.mem_append.mp hx with h | h
      · exact Or.inl h
      · exact Or.inr (Or.inr (by simpa using h))
    · rw [if_neg hlen] at hx
      exact Or.inl hx

theorem noHistoryFor_applyToUE_other (e u : Nat) (f : UeBuf → UeBuf)
    (bufs : List UeBuf) (hid : ∀ b, (f b).ueID = b.ueID) (hu : u ≠ e)
    (h : noHistoryFor e bufs) : noHistoryFor e (applyToUE bufs u f) := by
  intro x hx hxe
  rcases mem_applyToUE bufs u f x hx with hx1 | ⟨b, _, hbu, hxf⟩ | hxf
  · exact h x hx1 hxe
  · exfalso
    apply hu
    rw [← hbu, ← hid b, ← hxf]
    exact hxe
  · exfalso
    apply hu
    have : x.ueID = u := by rw [hxf, hid (freshBuf u)]; rfl
    rw [← this]
    exact hxe

theorem noHistoryFor_applyToUE_count (e u : Nat) (f : UeBuf → UeBuf)
    (bufs : List UeBuf) (hid : ∀ b, (f b).ueID = b.ueID)
    (hcnt : ∀ b, (f b).history_count = b.history_count)
    (h : noHistoryFor e bufs) : noHistoryFor e (applyToUE bufs u f) := by
  intro x hx hxe
  rcases mem_applyToUE bufs u f x hx with hx1 | ⟨b, hb, _, hxf⟩ | hxf
  · exact h x hx1 hxe
  · have hbue : b.ueID = e := by rw [← hid b, ← hxf]; exact hxe
    rw [hxf, hcnt b]
    exact h b hb hbue
  · rw [hxf, hcnt (freshBuf u)]
    rfl

theorem v2Phase1_noHistory (e ts : Nat) :
    ∀ (items : List V2Item) (bufs : List UeBuf),
      noHistoryFor e bufs → (∀ it ∈ items, ¬isServingFor e it) →
      noHistoryFor e (v2Phase1 ts bufs items) := by
  intro items
  induction items with
  | nil =>
    intro bufs h _
    simpa [v2Phase1] using h
  | cons it its ih =>
    intro bufs h hits
    have htail : ∀ it2 ∈ its, ¬isServingFor e it2 :=
      fun it2 h2 => hits it2 (List.mem_cons_of_mem _ h2)
    cases it with
    | serving c u s =>
      have hu : u ≠ e := fun he =>
        hits (.serving c u s) (List.mem_cons_self _ _) he
      by_cases hg : c ≠ UNKNOWN_ID ∧ u ≠ UNKNOWN_ID
      · rw [v2Phase1, if_pos hg]
        exact ih _ (noHistoryFor_applyToUE_other e u _ bufs
          (fun b => rfl) hu h) htail
      · rw [v2Phase1, if_neg hg]
        exact ih bufs h htail
    | neigh u c ps =>
      rw [v2Phase1]
      exact ih bufs h htail

theorem v2Phase2_noHistory (e : Nat) :
    ∀ (items : List V2Item) (bufs : List UeBuf),
      noHistoryFor e bufs → noHistoryFor e (v2Phase2 bufs items) := by
  intro items
  induction items with
  | nil =>
    intro bufs h
    simpa [v2Phase2] using h
  | cons it its ih =>
    intro bufs h
    cases it with
    | serving c u s =>
      rw [v2Phase2]
      exact ih bufs h
    | neigh u c ps =>
      by_cases hg : u ≠ UNKNOWN_ID ∧ c ≠ UNKNOWN_ID
      · rw [v2Phase2, if_pos hg]
        exact ih _ (noHistoryFor_applyToUE_count e u _ bufs
          (fun b => (foldNb_preserves ps b).1)
          (fun b => (foldNb_preserves ps b).2) h)
      · rw [v2Phase2, if_neg hg]
        exact ih bufs h

theorem v2Phase3_avoids (e : Nat) :
    ∀ (bufs : List UeBuf) (burst : BurstState),
      noHistoryFor e bufs →
      e ∉ (v2Phase3 burst bufs).2.2 ∧
      ∀ r ∈ (v2Phase3 burst bufs).2.1, r.ueID ≠ e := by
  intro bufs
  induction bufs with
  | nil =>
    intro burst _
    simp [v2Phase3]
  | cons b bs ih =>
    intro burst h
    have htail : noHistoryFor e bs :=
      fun x hx => h x (List.mem_cons_of_mem _ hx)
    by_cases hc : 0 < b.history_count
    · have hbne : b.ueID ≠ e := by
        intro he
        have := h b (List.mem_cons_self _ _) he
        omega
      rw [v2Phase3, if_pos hc]
      obtain ⟨ih1, ih2⟩ := ih (assignSeq burst b.ueID).2 htail
      constructor
      · intro hmem
        rcases List.mem_cons.mp hmem with hmem | hmem
        · exact hbne hmem.symm
        · exact ih1 hmem
      · intro r hr
        rcases List.mem_append.mp hr with hr | hr
        · have hsome : checkAndSend b (assignSeq burst b.ueID).1 = some r := by
            cases hcs : checkAndSend b (assignSeq burst b.ueID).1 with
            | none =>
              rw [hcs] at hr
              simp at hr
            | some r2 =>
              rw [hcs] at hr
              simp at hr
              simp [hcs, hr]
          rw [checkAndSend_ueID b _ r hsome]
          exact hbne
        · exact ih2 r hr
    · rw [v2Phase3, if_neg hc]
      exact ih burst htail

/-- C10: in the sequence-synchronized variant, an entity that only ever
produces neighbor tuples (never a serving tuple) never has a record
emitted and is never assigned a burst sequence number: its measurement
history count stays zero across any sequence of deliveries (the history
count is increased only by serving samples — adding a neighbor sample
leaves it unchanged), and the per-entity emission loop invokes the
burst clock and the emitter only for entities with a positive history
count. -/
theorem C10_neighbor_only_never_emits (e : Nat) (ds : List (Nat × List V2Item)) :
    ∀ (st : V2State), noHistoryFor e st.bufs →
      (∀ d ∈ ds, ∀ it ∈ d.2, ¬isServingFor e it) →
      (noHistoryFor e (processDeliveriesV2 st ds).st.bufs ∧
       e ∉ (processDeliveriesV2 st ds).asg ∧
       (∀ r ∈ (processDeliveriesV2 st ds).recs, r.ueID ≠ e)) ∧
      (∀ (b : UeBuf) (id : Nat) (s : FP),
        (addNeighborSample b id s).history_count = b.history_count) := by
  induction ds with
  | nil =>
    intro st h1 _
    exact ⟨⟨by simpa [processDeliveriesV2] using h1,
      by simp [processDeliveriesV2],
      by simp [processDeliveriesV2]⟩, addNeighborSample_history_count⟩
  | cons d ds ih =>
    intro st h1 h2
    have hitems : ∀ it ∈ d.2, ¬isServingFor e it :=
      h2 d (List.mem_cons_self _ _)
    have htail : ∀ d2 ∈ ds, ∀ it ∈ d2.2, ¬isServingFor e it :=
      fun d2 hd2 => h2 d2 (List.mem_cons_of_mem _ hd2)
    have hbufs2 : noHistoryFor e
        (v2Phase2 (v2Phase1 d.1 st.bufs d.2) d.2) :=
      v2Phase2_noHistory e d.2 _ (v2Phase1_noHistory e d.1 d.2 st.bufs h1 hitems)
    have hphase3 := v2Phase3_avoids e
      (v2Phase2 (v2Phase1 d.1 st.bufs d.2) d.2) st.burst hbufs2
    have hstep : noHistoryFor e (processDeliveryV2 st d.1 d.2).st.bufs :=
      hbufs2
    obtain ⟨⟨ih1, ih2, ih3⟩, _⟩ :=
      ih (processDeliveryV2 st d.1 d.2).st hstep htail
    refine ⟨⟨?_, ?_, ?_⟩, addNeighborSample_history_count⟩
    · simpa [processDeliveriesV2] using ih1
    · simp only [processDeliveriesV2, List.mem_append]
      intro hmem
      rcases hmem with hmem | hmem
      · exact hphase3.1 hmem
      · exact ih2 hmem
    · intro r hr
      simp only [processDeliveriesV2, List.mem_append] at hr
      rcases hr with hr | hr
      · exact hphase3.2 r hr
      · exact ih3 r hr

/-- Witness for C10: one delivery containing only a neighbor tuple for
entity 5 assigns no sequence to entity 5 and emits no record for it. -/
theorem C10_neighbor_only_never_emits_witness :
    5 ∉ (processDeliveriesV2 v2Init
      [(0, [V2Item.neigh 5 2 [(3, FP.fin 7)]])]).asg ∧
    ∀ r ∈ (processDeliveriesV2 v2Init
      [(0, [V2Item.neigh 5 2 [(3, FP.fin 7)]])]).recs, r.ueID ≠ 5 :=
  have happ := C10_neighbor_only_never_emits 5
    [(0, [V2Item.neigh 5 2 [(3, FP.fin 7)]])] v2Init
    (fun b hb => absurd hb (List.not_mem_nil b))
    (by
      intro d hd it hit
      simp at hd
      rw [hd] at hit
      simp at hit
      rw [hit]
      exact fun hf => hf)
  ⟨happ.1.2.1, happ.1.2.2⟩
